import Mathlib

/-! Verification development for the backend testing-pipeline orchestrator
(code_tester.py) and the analyzer scoring helpers (code_analyzer.py) of the
repository, as a shallow embedding: every stage is a pure Lean function over an
explicit environment record that stands for the external world (subprocess exit
codes and captured output, Gemini responses, filesystem observations).  String
manipulation mirrors the Python string operations on explicit character lists. -/

/-- Python whitespace characters, the set stripped by str.strip. -/
def pyWs (c : Char) : Bool :=
  c == ' ' || c == '\t' || c == '\n' || c == '\r' || c == '\x0b' || c == '\x0c'

/-- Python str.strip on a character list: drop whitespace from both ends. -/
def pyStrip (s : List Char) : List Char :=
  ((s.dropWhile pyWs).reverse.dropWhile pyWs).reverse

/-- Python str.split with a one-character separator. -/
def splitChar (sep : Char) : List Char → List (List Char)
  | [] => [[]]
  | c :: cs =>
    match splitChar sep cs with
    | [] => [[c]]
    | l :: ls => if c == sep then [] :: l :: ls else (c :: l) :: ls

/-- Boolean test that the first character list is a leading segment of the second. -/
def isPrefC : List Char → List Char → Bool
  | [], _ => true
  | _ :: _, [] => false
  | a :: as, b :: bs => a == b && isPrefC as bs

/-- Index of the first occurrence of needle in hay (python str.find semantics). -/
def firstOcc (needle : List Char) : List Char → Option Nat
  | [] => if isPrefC needle [] then some 0 else none
  | c :: cs => if isPrefC needle (c :: cs) then some 0 else (firstOcc needle cs).map (· + 1)

/-- Index of the last occurrence of needle in hay; occurrences may overlap. -/
def lastOcc (needle : List Char) : List Char → Option Nat
  | [] => if isPrefC needle [] then some 0 else none
  | c :: cs =>
    match lastOcc needle cs with
    | some i => some (i + 1)
    | none => if isPrefC needle (c :: cs) then some 0 else none

/-- Python substring membership (the in operator on strings). -/
def containsSub (needle hay : List Char) : Bool := (firstOcc needle hay).isSome

/-- Python sep.join over a list of strings. -/
def pyJoin (sep : String) : List String → String
  | [] => ""
  | [x] => x
  | x :: y :: t => x ++ sep ++ pyJoin sep (y :: t)

/-! ### Mutation score extraction (code_tester.py, _run_mutation_testing)

Source:
  lines, score = result.stdout.strip().split(chr(10)), "N/A"
  if lines and "killed" in lines[-1]:
      parts = lines[-1].split("(")
      if len(parts) > 1: score = parts[1].split(")")[0]
-/

/-- Last element of stdout.strip().split newline, exactly lines[-1] in the source
(the split of a stripped string is never empty, so the python truthiness guard
on lines is always passed). -/
def pyLastLine (s : String) : List Char :=
  (splitChar '\n' (pyStrip s.data)).getLastD []

/-- Mutation-score extraction from the mutmut results stdout.  parts[1] of the
split on the opening parenthesis is the segment after the first opening
parenthesis truncated at the next opening parenthesis, and taking [0] of its
split on the closing parenthesis truncates at the first closing parenthesis. -/
def mutmut_score (stdout : String) : String :=
  let lastL := pyLastLine stdout
  if containsSub "killed".data lastL then
    match firstOcc ['('] lastL with
    | some i =>
      String.mk (((lastL.drop (i + 1)).takeWhile (fun c => c != '(')).takeWhile
        (fun c => c != ')'))
    | none => "N/A"
  else "N/A"

/-- External-world observations consumed by _run_mutation_testing: the exit
codes of the two mutmut subprocess invocations and the stdout of mutmut
results.  The exit code of mutmut run is recorded but never inspected by the
source, faithfully to the code. -/
structure MutEnv where
  runExit : Int
  resultsExit : Int
  resultsStdout : String

/-- Normalized result of the mutation stage (python dict with keys tool,
success, score, raw_report; the constant tool tag is omitted). -/
structure MutReport where
  success : Bool
  score : String
  raw_report : String
deriving DecidableEq, Repr

/-- Embedding of _run_mutation_testing: success is the mutmut results exit
status being zero, score is extracted from its stdout. -/
def _run_mutation_testing (env : MutEnv) : MutReport :=
  { success := env.resultsExit == 0
    score := mutmut_score env.resultsStdout
    raw_report := env.resultsStdout }

/-! ### AI test generation (code_tester.py, _run_ai_test_generation) -/

/-- The literal fence header searched by the regex

  re.search of three backticks, python, newline, then a dotall group, then
  three backticks. -/
def pyFenceHdr : List Char := "```python\n".data

/-- The closing fence literal. -/
def tripTicks : List Char := "```".data

/-- Embedding of the response-text cleanup:
  code_match = re.search(fence regex with DOTALL, test_code)
  cleaned_code = code_match.group(1).strip() if code_match else test_code.strip()
The regex matches iff the fence header occurs and three backticks occur
somewhere after it; the leftmost match starts at the first header occurrence
and the greedy dotall group extends to the last occurrence of three backticks
after the header. -/
def cleaned_code (s : String) : String :=
  match firstOcc pyFenceHdr s.data with
  | none => String.mk (pyStrip s.data)
  | some i =>
    let rest := s.data.drop (i + pyFenceHdr.length)
    match lastOcc tripTicks rest with
    | none => String.mk (pyStrip s.data)
    | some j => String.mk (pyStrip (rest.take j))

/-- Reading of the spec sentence (use only the first such fenced block, i.e.
content between the fence header and the first closing fence, stripped), used
to compare against the code behaviour. -/
def firstBlockSpec (s : String) : Option String :=
  match firstOcc pyFenceHdr s.data with
  | none => none
  | some i =>
    let rest := s.data.drop (i + pyFenceHdr.length)
    match firstOcc tripTicks rest with
    | none => none
    | some j => some (String.mk (pyStrip (rest.take j)))

/-- Outcome of one model.generate_content call, as observed by the source:
the call raised, or returned a response with no candidates (optionally carrying
prompt_feedback.block_reason.name), or returned a textual completion. -/
inductive GenOutcome where
  | raised (msg : String)
  | blocked (reason : Option String)
  | completed (text : String)
deriving DecidableEq, Repr

/-- External world of the AI generation stage: whether GEMINI_API_KEY is set,
and the response produced for the unit at each loop index. -/
structure GemEnv where
  apiKey : Bool
  response : Nat → GenOutcome

/-- Error message recorded when a response carries no candidates: the source
raises ValueError with this text and catches it into the per-file error list. -/
def blockedMsg (reason : Option String) : String :=
  "Response was blocked by safety filters. Reason: " ++ reason.getD "Unknown"

/-- Accumulated outcome of the per-unit loop: count of persisted test files,
per-file error entries, and the in-memory generated_tests pairs. -/
structure GemAcc where
  generated : Nat
  errors : List (String × String)
  tests : List (String × String)
deriving DecidableEq, Repr

/-- Contribution of one unit of the loop body to the accumulators. -/
def gemStep (o : GenOutcome) (filename : String) : GemAcc :=
  match o with
  | .raised msg => ⟨0, [(filename, msg)], []⟩
  | .blocked r => ⟨0, [(filename, blockedMsg r)], []⟩
  | .completed text =>
    let cleaned := cleaned_code text
    if cleaned = "" then
      ⟨0, [(filename, "Gemini returned a valid but empty response.")], []⟩
    else ⟨1, [], [(filename, cleaned)]⟩

/-- Concatenation of accumulated outcomes, in iteration order. -/
def gemCombine (x y : GemAcc) : GemAcc :=
  ⟨x.generated + y.generated, x.errors ++ y.errors, x.tests ++ y.tests⟩

/-- The per-unit loop over the basenames of the selected files, carrying the
loop index that the response environment is keyed on. -/
def gemLoop (env : GemEnv) : List String → Nat → GemAcc
  | [], _ => ⟨0, [], []⟩
  | f :: fs, i => gemCombine (gemStep (env.response i) f) (gemLoop env fs (i + 1))

/-- True when the response at a unit leads to a persisted test file: a textual
completion whose cleanup is non-empty. -/
def unitOk (o : GenOutcome) : Bool :=
  match o with
  | .completed t => cleaned_code t != ""
  | _ => false

/-- Path of a source unit, as the list of its path components. -/
abbrev PyPath : Type := List String

/-- os.path.basename on a component list: the final component. -/
def basename (p : PyPath) : String := p.getLastD ""

/-- The populated gemini stage dict (keys tool, success, files_processed,
test_suites_generated, errors, generated_tests; constant tool tag omitted). -/
structure GemRun where
  success : Bool
  files_processed : Nat
  test_suites_generated : Nat
  errors : List (String × String)
  generated_tests : List (String × String)
deriving DecidableEq, Repr

/-- Result of the gemini stage: either the short-circuit dict returned when no
API key is configured, or the populated run dict. -/
inductive GemReport where
  | skipped (message : String)
  | ran (r : GemRun)
deriving DecidableEq, Repr

/-- The success entry of either gemini result shape (the skipped dict carries
success = False). -/
def GemReport.success : GemReport → Bool
  | .skipped _ => false
  | .ran r => r.success

/-- Embedding of _run_ai_test_generation.  The prompt embeds the unit source
text, so the response is modelled as a function of the loop index; the loop
iterates over code_contents with paths looked up at the same index (the HTTP
layer always passes lists of equal length, and the embedding zips them). -/
def _run_ai_test_generation (env : GemEnv) (contents : List String)
    (paths : List PyPath) : GemReport :=
  if env.apiKey then
    let acc := gemLoop env ((List.zip contents paths).map (fun u => basename u.2)) 0
    .ran { success := decide (0 < acc.generated)
           files_processed := contents.length
           test_suites_generated := acc.generated
           errors := acc.errors
           generated_tests := acc.tests }
  else .skipped "GEMINI_API_KEY not set. Skipping."

/-! ### Pynguin test generation (code_tester.py, _run_test_generation) -/

/-- External world of the pynguin stage: per module, the subprocess exit code
and captured stderr, and whether the tool actually produced a test file under
the output path.  The source never inspects the last observation (nothing after
subprocess.run looks at the output directory); it is recorded here because the
spec claims are stated in terms of produced output. -/
structure PynEnv where
  exitCode : String → Int
  errOutput : String → String
  wroteTests : String → Bool

/-- Normalized result of the pynguin stage (keys tool, success, modules_tested,
test_suites_generated, errors; constant tool tag omitted). -/
structure PynReport where
  success : Bool
  modules_tested : Nat
  test_suites_generated : Nat
  errors : List (String × String)
deriving DecidableEq, Repr

/-- The per-module loop: counts modules whose subprocess exited with status 0
and records a truncated stderr error entry for the others, in iteration
order. -/
def pynLoop (env : PynEnv) : List String → Nat × List (String × String)
  | [] => (0, [])
  | m :: ms =>
    let rest := pynLoop env ms
    if env.exitCode m == 0 then (rest.1 + 1, rest.2)
    else (rest.1, (m, String.mk ((env.errOutput m).data.take 500) ++ "...") :: rest.2)

/-- Embedding of _run_test_generation: success is generated_files > 0 where
generated_files counts exit-status-0 invocations. -/
def _run_test_generation (env : PynEnv) (modules : List String) : PynReport :=
  let r := pynLoop env modules
  { success := decide (0 < r.1)
    modules_tested := modules.length
    test_suites_generated := r.1
    errors := r.2 }

/-! ### Coverage analysis (code_tester.py, _run_coverage_analysis) -/

/-- External world of the coverage stage: whether the coverage.json report file
exists after the pytest run, the percent_covered_display entry of its totals
section when present, the raw files section, and the captured pytest output. -/
structure CovEnv where
  jsonExists : Bool
  totalsPercent : Option String
  filesRaw : String
  stderr : String
  stdout : String

/-- Result of the coverage stage: the parsed-report dict (keys tool, success,
summary, files) or the failure dict (keys tool, success, error). -/
inductive CovReport where
  | parsed (totalsPercent : Option String) (filesRaw : String)
  | failed (error : String)
deriving DecidableEq, Repr

/-- The success entry of either coverage result shape. -/
def CovReport.success : CovReport → Bool
  | .parsed _ _ => true
  | .failed _ => false

/-- Embedding of _run_coverage_analysis.  The second component records whether
and with which --cov scope the pytest subprocess was invoked (none when the
function returned before invoking it). -/
def _run_coverage_analysis (env : CovEnv) (modules : List String) :
    CovReport × Option String :=
  let modules_to_cover := pyJoin "," (modules.filter (fun m => m != ""))
  if modules_to_cover = "" then (.failed "No modules to cover.", none)
  else
    (if env.jsonExists then .parsed env.totalsPercent env.filesRaw
     else .failed (if env.stderr ≠ "" then env.stderr else env.stdout),
     some modules_to_cover)

/-! ### Workspace materialization (code_tester.py, _setup_project_structure) -/

/-- Longest common leading segment of two component lists (the component-wise
computation performed by os.path.commonpath). -/
def lcp : List String → List String → List String
  | [], _ => []
  | _, [] => []
  | a :: as, b :: bs => if a == b then a :: lcp as bs else []

/-- os.path.commonpath over the selected paths (the source guards the empty
list and substitutes the current directory; with no paths the unit loop is
empty so the base is irrelevant and the embedding uses the empty path). -/
def common_base : List PyPath → PyPath
  | [] => []
  | p :: ps => ps.foldl lcp p

/-- Boolean leading-segment test on component lists. -/
def isPrefL : List String → List String → Bool
  | [], _ => true
  | _ :: _, [] => false
  | a :: as, b :: bs => a == b && isPrefL as bs

/-- pathlib suffix of a final path component: the substring from the last dot,
empty when the dot is absent, leading, or final (cpython: return name[i:] when
0 < i < len(name) - 1 for i = name.rfind of the dot, else the empty string). -/
def pySuffix (name : String) : String :=
  match lastOcc ['.'] name.data with
  | none => ""
  | some i =>
    if 0 < i ∧ i < name.data.length - 1 then String.mk (name.data.drop i) else ""

/-- with_suffix of the empty string on a name: the name with its suffix
removed. -/
def stripSfx (name : String) : String :=
  String.mk (name.data.take (name.data.length - (pySuffix name).data.length))

/-- True when the unit path carries the recognized source suffix
(original_path.suffix == ".py"). -/
def isPy (p : PyPath) : Bool := pySuffix (basename p) == ".py"

/-- Dotted module name of a workspace-relative unit path:
the dot-join of relative_path.with_suffix of the empty string .parts. -/
def moduleName (rel : PyPath) : String :=
  pyJoin "." (rel.dropLast ++ [stripSfx (rel.getLastD "")])

/-- Python exceptions that the pipeline raises or that the modelled filesystem
operations raise, with their category (class) name and message. -/
inductive PyExn where
  | valueError (msg : String)
  | runtimeError (msg : String)
  | isADirectoryError (msg : String)
  | fileExistsError (msg : String)
deriving DecidableEq, Repr

/-- str(e): the message of the exception, without its category name. -/
def PyExn.msg : PyExn → String
  | .valueError m => m
  | .runtimeError m => m
  | .isADirectoryError m => m
  | .fileExistsError m => m

/-- type(e).__name__: the category name of the exception. -/
def PyExn.category : PyExn → String
  | .valueError _ => "ValueError"
  | .runtimeError _ => "RuntimeError"
  | .isADirectoryError _ => "IsADirectoryError"
  | .fileExistsError _ => "FileExistsError"

/-- Path(p).relative_to(base): drop the leading base components, ValueError
when base is not a leading segment of p. -/
def relTo (p base : PyPath) : Except PyExn PyPath :=
  if isPrefL base p then .ok (p.drop base.length)
  else .error (.valueError "path is not relative to the base path")

/-- Strict leading-segment test (a leading segment, and shorter). -/
def strictPref (a b : PyPath) : Bool := isPrefL a b && a != b

/-- One write_text of a unit at workspace-relative path r, given the relative
paths of the files written so far.  Writing to the workspace root (empty
relative path, the single-selected-file case) raises IsADirectoryError; making
a parent directory where a file already exists raises FileExistsError; writing
over an already-created directory raises IsADirectoryError.  Re-writing an
identical file path truncates and succeeds, as write_text does. -/
def writeTo (written : List PyPath) (r : PyPath) : Except PyExn (List PyPath) :=
  if r.isEmpty then
    .error (.isADirectoryError "write_text target is the project root directory")
  else if written.any (fun f => strictPref f r) then
    .error (.fileExistsError "mkdir target already exists as a file")
  else if written.any (fun f => strictPref r f) then
    .error (.isADirectoryError "write_text target is an existing directory")
  else .ok (written ++ [r])

/-- The per-unit materialization loop: skip units without the .py suffix,
compute the path relative to the common base, write the file, and accumulate
the written source paths (workspace-relative; the source stores the same paths
prefixed by the temporary root) and dotted module names in order. -/
def setupLoop (common : PyPath) :
    List (String × PyPath) → List PyPath → List String →
    Except PyExn (List PyPath × List String)
  | [], sp, mn => .ok (sp, mn)
  | (_, p) :: rest, sp, mn =>
    if isPy p then
      match relTo p common with
      | .error e => .error e
      | .ok r =>
        match writeTo sp r with
        | .error e => .error e
        | .ok sp2 => setupLoop common rest sp2 (mn ++ [moduleName r])
  else setupLoop common rest sp mn

/-- Embedding of _setup_project_structure over the zipped contents and paths
(the HTTP layer always passes lists of equal length).  The __init__.py package
markers touched afterwards are not modelled; no claim depends on them. -/
def _setup_project_structure (contents : List String) (paths : List PyPath) :
    Except PyExn (List PyPath × List String) :=
  setupLoop (common_base paths) (List.zip contents paths) [] []

/-! ### Pipeline coordinator (code_tester.py, run_testing_pipeline) -/

/-- The top-level summary dict: overall status, message, and on the success
path the coverage display and mutation score headline entries (absent on the
failure path, modelled as none). -/
structure Summary where
  overall_status : String
  message : String
  coverage : Option String
  mutation_score : Option String
deriving DecidableEq, Repr

/-- The consolidated report.  A stage entry equal to none models the initial
placeholder dict ({success: False, message: step did not run}) that the stage
assignment never replaced. -/
structure FinalReport where
  summary : Summary
  pynguin_test_generation : Option PynReport
  gemini_test_generation : Option GemReport
  coverage_analysis : Option CovReport
  mutation_testing : Option MutReport
deriving DecidableEq, Repr

/-- Report produced by the except-branch: Failure status, str(e) as the
message, and every not-yet-assigned stage entry left at its placeholder. -/
def failureReport (e : PyExn) (pyn : Option PynReport) (gem : Option GemReport) :
    FinalReport :=
  { summary := { overall_status := "Failure", message := e.msg,
                 coverage := none, mutation_score := none }
    pynguin_test_generation := pyn
    gemini_test_generation := gem
    coverage_analysis := none
    mutation_testing := none }

/-- cov_report.get of summary then percent_covered_display, defaulting to
"N/A" at both levels. -/
def covPercent : CovReport → String
  | .parsed (some pd) _ => pd
  | .parsed none _ => "N/A"
  | .failed _ => "N/A"

/-- External world of one whole pipeline invocation. -/
structure PipeEnv where
  pyn : PynEnv
  gem : GemEnv
  cov : CovEnv
  mu : MutEnv

/-- Embedding of run_testing_pipeline: materialize, generate with both
runners, gate on both having failed, measure, and assemble the report; every
raised exception is caught and turned into a Failure report, and the report is
returned in the finally block on every path. -/
def run_testing_pipeline (env : PipeEnv) (contents : List String)
    (paths : List PyPath) : FinalReport :=
  match _setup_project_structure contents paths with
  | .error e => failureReport e none none
  | .ok (source_paths, module_names) =>
    if source_paths.isEmpty then
      failureReport
        (.valueError "Setup failed: No valid Python modules found in selection.")
        none none
    else
      let pynR := _run_test_generation env.pyn module_names
      let gemR := _run_ai_test_generation env.gem contents paths
      if !pynR.success && !GemReport.success gemR then
        failureReport
          (.runtimeError "All test generation methods failed, cannot proceed.")
          (some pynR) (some gemR)
      else
        let covR := (_run_coverage_analysis env.cov module_names).1
        let mutR := _run_mutation_testing env.mu
        { summary := { overall_status := "Success"
                       message := "Testing pipeline completed."
                       coverage := some (covPercent covR)
                       mutation_score := some mutR.score }
          pynguin_test_generation := some pynR
          gemini_test_generation := some gemR
          coverage_analysis := some covR
          mutation_testing := some mutR }

/-! ### Analyzer scoring (code_analyzer.py) -/

/-- Security score from bandit severity counts: 100 minus fixed per-severity
penalties, floored at 0. -/
def security_score (high medium low : Int) : Int :=
  max 0 (100 - high * 10 - medium * 5 - low * 2)

/-- Grade mapping of _generate_matrix_chart.get_grade. -/
def get_grade (score : Int) : String :=
  if score ≥ 90 then "A (Excellent)"
  else if score ≥ 75 then "B (Good)"
  else if score ≥ 60 then "C (Fair)"
  else if score ≥ 40 then "D (Poor)"
  else "F (Critical)"

/-! ### Concrete fixtures used by witnesses and counterexamples -/

/-- A pipeline environment in which every external tool fails: pynguin exits 1
for every module, no API key is configured, no coverage report appears, mutmut
exits 0 with empty output. -/
def envAllFail : PipeEnv :=
  { pyn := { exitCode := fun _ => 1, errOutput := fun _ => "", wroteTests := fun _ => false }
    gem := { apiKey := false, response := fun _ => .blocked none }
    cov := { jsonExists := false, totalsPercent := none, filesRaw := "", stderr := "", stdout := "" }
    mu := { runExit := 0, resultsExit := 0, resultsStdout := "" } }

/-- Two-file selection under a common directory, used by pipeline fixtures. -/
def pathsTwo : List PyPath := [["r", "a.py"], ["r", "b.py"]]

/-- Contents paired with pathsTwo. -/
def contentsTwo : List String := ["x", "y"]

/-- Completion text holding two fenced code blocks; the greedy regex group
spans from the first fence header to the last closing fence. -/
def twoBlocks : String := "```python\na\n```\nmid\n```python\nb\n```"

/-- A pynguin environment whose tool process always exits 0 yet never writes
any test file. -/
def pynEnvExitZero : PynEnv :=
  { exitCode := fun _ => 0, errOutput := fun _ => "", wroteTests := fun _ => false }

/-- A gemini environment with a configured key whose response is blocked for
the first unit and a plain completion for every later unit. -/
def gemEnvW : GemEnv :=
  { apiKey := true
    response := fun i => if i == 0 then .blocked none else .completed "x" }

/-! ### Lemmas about the character-list search primitives -/

theorem isPrefC_iff (n : List Char) : ∀ h, isPrefC n h = true ↔ ∃ t, h = n ++ t := by
  induction n with
  | nil => intro h; simp [isPrefC]
  | cons c cs ih =>
    intro h
    cases h with
    | nil =>
      simp only [isPrefC, List.cons_append]
      exact iff_of_false (by simp) (by rintro ⟨t, ht⟩; exact absurd ht (by simp))
    | cons b bs =>
      simp only [isPrefC, Bool.and_eq_true, beq_iff_eq, List.cons_append]
      constructor
      · rintro ⟨rfl, hp⟩
        obtain ⟨t, rfl⟩ := (ih bs).mp hp
        exact ⟨t, rfl⟩
      · rintro ⟨t, ht⟩
        injection ht with h1 h2
        exact ⟨h1.symm, (ih bs).mpr ⟨t, h2⟩⟩

theorem firstOcc_none_iff (n : List Char) :
    ∀ h, firstOcc n h = none ↔ ¬ ∃ a b, h = a ++ n ++ b := by
  intro h
  induction h with
  | nil =>
    simp only [firstOcc]
    by_cases hp : isPrefC n [] = true
    · obtain ⟨t, ht⟩ := (isPrefC_iff n []).mp hp
      rw [if_pos hp]
      exact iff_of_false (by simp) (not_not_intro ⟨[], t, by simpa using ht⟩)
    · rw [if_neg hp]
      refine iff_of_true rfl ?_
      rintro ⟨a, b, hab⟩
      cases a with
      | nil => exact hp ((isPrefC_iff n []).mpr ⟨b, by simpa using hab⟩)
      | cons x xs => cases hab
  | cons x xs ih =>
    simp only [firstOcc]
    by_cases hp : isPrefC n (x :: xs) = true
    · obtain ⟨t, ht⟩ := (isPrefC_iff n (x :: xs)).mp hp
      rw [if_pos hp]
      exact iff_of_false (by simp) (not_not_intro ⟨[], t, by simpa using ht⟩)
    · rw [if_neg hp, Option.map_eq_none', ih]
      constructor
      · rintro hno ⟨a, b, hab⟩
        cases a with
        | nil => exact hp ((isPrefC_iff n (x :: xs)).mpr ⟨b, by simpa using hab⟩)
        | cons a0 as =>
          injection hab with h1 h2
          exact hno ⟨as, b, h2⟩
      · rintro hno ⟨a, b, hab⟩
        exact hno ⟨x :: a, b, by simp [hab]⟩

theorem firstOcc_some_occurs (n : List Char) :
    ∀ h i, firstOcc n h = some i → ∃ a b, h = a ++ n ++ b ∧ a.length = i := by
  intro h
  induction h with
  | nil =>
    intro i hi
    simp only [firstOcc] at hi
    by_cases hp : isPrefC n [] = true
    · rw [if_pos hp] at hi
      obtain ⟨t, ht⟩ := (isPrefC_iff n []).mp hp
      injection hi with h0
      exact ⟨[], t, by simpa using ht, h0⟩
    · rw [if_neg hp] at hi; cases hi
  | cons x xs ih =>
    intro i hi
    simp only [firstOcc] at hi
    by_cases hp : isPrefC n (x :: xs) = true
    · rw [if_pos hp] at hi
      obtain ⟨t, ht⟩ := (isPrefC_iff n (x :: xs)).mp hp
      injection hi with h0
      exact ⟨[], t, by simpa using ht, h0⟩
    · rw [if_neg hp, Option.map_eq_some'] at hi
      obtain ⟨j, hj, rfl⟩ := hi
      obtain ⟨a, b, hab, rfl⟩ := ih j hj
      exact ⟨x :: a, b, by simp [hab], rfl⟩

theorem firstOcc_min (n : List Char) :
    ∀ h i, firstOcc n h = some i → ∀ x y, h = x ++ n ++ y → i ≤ x.length := by
  intro h
  induction h with
  | nil =>
    intro i hi x y hxy
    simp only [firstOcc] at hi
    by_cases hp : isPrefC n [] = true
    · rw [if_pos hp] at hi; injection hi with h0; omega
    · rw [if_neg hp] at hi; cases hi
  | cons c cs ih =>
    intro i hi x y hxy
    simp only [firstOcc] at hi
    by_cases hp : isPrefC n (c :: cs) = true
    · rw [if_pos hp] at hi; injection hi with h0; omega
    · rw [if_neg hp, Option.map_eq_some'] at hi
      obtain ⟨j, hj, rfl⟩ := hi
      cases x with
      | nil => exact absurd ((isPrefC_iff n (c :: cs)).mpr ⟨y, by simpa using hxy⟩) hp
      | cons x0 xt =>
        injection hxy with h1 h2
        have := ih j hj xt y h2
        simp only [List.length_cons]
        omega

theorem lastOcc_none_iff (n : List Char) :
    ∀ h, lastOcc n h = none ↔ ¬ ∃ a b, h = a ++ n ++ b := by
  intro h
  induction h with
  | nil =>
    simp only [lastOcc]
    by_cases hp : isPrefC n [] = true
    · obtain ⟨t, ht⟩ := (isPrefC_iff n []).mp hp
      rw [if_pos hp]
      exact iff_of_false (by simp) (not_not_intro ⟨[], t, by simpa using ht⟩)
    · rw [if_neg hp]
      refine iff_of_true rfl ?_
      rintro ⟨a, b, hab⟩
      cases a with
      | nil => exact hp ((isPrefC_iff n []).mpr ⟨b, by simpa using hab⟩)
      | cons x xs => cases hab
  | cons x xs ih =>
    simp only [lastOcc]
    cases hrec : lastOcc n xs with
    | some j =>
      refine iff_of_false (by simp) ?_
      have hne : ∃ a b, xs = a ++ n ++ b := by
        by_contra hno
        rw [← ih] at hno
        simp [hrec] at hno
      obtain ⟨a, b, hab⟩ := hne
      exact not_not_intro ⟨x :: a, b, by simp [hab]⟩
    | none =>
      by_cases hp : isPrefC n (x :: xs) = true
      · obtain ⟨t, ht⟩ := (isPrefC_iff n (x :: xs)).mp hp
        rw [if_pos hp]
        exact iff_of_false (by simp) (not_not_intro ⟨[], t, by simpa using ht⟩)
      · rw [if_neg hp]
        refine iff_of_true rfl ?_
        rintro ⟨a, b, hab⟩
        cases a with
        | nil => exact hp ((isPrefC_iff n (x :: xs)).mpr ⟨b, by simpa using hab⟩)
        | cons a0 as =>
          injection hab with h1 h2
          exact (ih.mp hrec) ⟨as, b, h2⟩

theorem lastOcc_some_occurs (n : List Char) :
    ∀ h i, lastOcc n h = some i → ∃ a b, h = a ++ n ++ b ∧ a.length = i := by
  intro h
  induction h with
  | nil =>
    intro i hi
    simp only [lastOcc] at hi
    by_cases hp : isPrefC n [] = true
    · rw [if_pos hp] at hi
      obtain ⟨t, ht⟩ := (isPrefC_iff n []).mp hp
      injection hi with h0
      exact ⟨[], t, by simpa using ht, h0⟩
    · rw [if_neg hp] at hi; cases hi
  | cons x xs ih =>
    intro i hi
    simp only [lastOcc] at hi
    cases hrec : lastOcc n xs with
    | some j =>
      rw [hrec] at hi
      injection hi with h0
      obtain ⟨a, b, hab, ha⟩ := ih j hrec
      exact ⟨x :: a, b, by simp [hab], by simp [ha, ← h0]⟩
    | none =>
      rw [hrec] at hi
      by_cases hp : isPrefC n (x :: xs) = true
      · rw [if_pos hp] at hi
        obtain ⟨t, ht⟩ := (isPrefC_iff n (x :: xs)).mp hp
        injection hi with h0
        exact ⟨[], t, by simpa using ht, h0⟩
      · rw [if_neg hp] at hi; cases hi

theorem lastOcc_max (n : List Char) :
    ∀ h i, lastOcc n h = some i → ∀ x y, h = x ++ n ++ y → x.length ≤ i := by
  intro h
  induction h with
  | nil =>
    intro i hi x y hxy
    have : x.length = 0 := by
      cases x with
      | nil => rfl
      | cons x0 xt => cases hxy
    omega
  | cons c cs ih =>
    intro i hi x y hxy
    simp only [lastOcc] at hi
    cases hrec : lastOcc n cs with
    | some j =>
      rw [hrec] at hi
      injection hi with h0
      cases x with
      | nil => simp
      | cons x0 xt =>
        injection hxy with h1 h2
        have := ih j hrec xt y h2
        simp only [List.length_cons]
        omega
    | none =>
      rw [hrec] at hi
      by_cases hp : isPrefC n (c :: cs) = true
      · rw [if_pos hp] at hi
        injection hi with h0
        cases x with
        | nil => simp
        | cons x0 xt =>
          injection hxy with h1 h2
          exact absurd ⟨xt, y, h2⟩ ((lastOcc_none_iff n cs).mp hrec)
      · rw [if_neg hp] at hi; cases hi

theorem firstOcc_eq (n a b : List Char)
    (hmin : ¬ ∃ x y, a ++ n ++ b = x ++ n ++ y ∧ x.length < a.length) :
    firstOcc n (a ++ n ++ b) = some a.length := by
  cases hF : firstOcc n (a ++ n ++ b) with
  | none => exact absurd ⟨a, b, rfl⟩ ((firstOcc_none_iff n _).mp hF)
  | some i =>
    have h1 : i ≤ a.length := firstOcc_min n _ i hF a b rfl
    obtain ⟨x, y, hxy, hx⟩ := firstOcc_some_occurs n _ i hF
    have h2 : a.length ≤ i := by
      by_contra hlt
      exact hmin ⟨x, y, hxy, by omega⟩
    have : i = a.length := by omega
    rw [this]

theorem lastOcc_eq (n a b : List Char)
    (hmax : ¬ ∃ x y, a ++ n ++ b = x ++ n ++ y ∧ a.length < x.length) :
    lastOcc n (a ++ n ++ b) = some a.length := by
  cases hL : lastOcc n (a ++ n ++ b) with
  | none => exact absurd ⟨a, b, rfl⟩ ((lastOcc_none_iff n _).mp hL)
  | some i =>
    have h1 : a.length ≤ i := lastOcc_max n _ i hL a b rfl
    obtain ⟨x, y, hxy, hx⟩ := lastOcc_some_occurs n _ i hL
    have h2 : i ≤ a.length := by
      by_contra hlt
      exact hmax ⟨x, y, hxy, by omega⟩
    have : i = a.length := by omega
    rw [this]

theorem firstOcc_char (c : Char) (b : List Char) :
    ∀ a, c ∉ a → firstOcc [c] (a ++ c :: b) = some a.length := by
  intro a
  induction a with
  | nil =>
    intro _
    simp [firstOcc, isPrefC]
  | cons x xs ih =>
    intro hc
    have hxc : (c == x) = false := by
      simp only [beq_eq_false_iff_ne]
      intro h
      exact hc (h ▸ List.mem_cons_self x xs)
    have hrec := ih (fun h => hc (List.mem_cons_of_mem _ h))
    simp [firstOcc, isPrefC, hxc, hrec]

theorem containsSub_iff (n h : List Char) :
    containsSub n h = true ↔ ∃ a b, h = a ++ n ++ b := by
  unfold containsSub
  constructor
  · intro hs
    cases hF : firstOcc n h with
    | none => rw [hF] at hs; cases hs
    | some i =>
      obtain ⟨a, b, hab, _⟩ := firstOcc_some_occurs n h i hF
      exact ⟨a, b, hab⟩
  · rintro ⟨a, b, hab⟩
    cases hF : firstOcc n h with
    | none => exact absurd ⟨a, b, hab⟩ ((firstOcc_none_iff n h).mp hF)
    | some i => simp [hF]

/-! ### Lemmas about path component lists and the common base -/

theorem prefL_refl : ∀ p : PyPath, isPrefL p p = true := by
  intro p
  induction p with
  | nil => rfl
  | cons a as ih => simp [isPrefL, ih]

theorem lcp_prefL_left : ∀ a b : List String, isPrefL (lcp a b) a = true := by
  intro a
  induction a with
  | nil => intro b; cases b <;> rfl
  | cons x xs ih =>
    intro b
    cases b with
    | nil => rfl
    | cons y ys =>
      simp only [lcp]
      by_cases hxy : (x == y) = true
      · rw [if_pos hxy]
        simp only [isPrefL, Bool.and_eq_true]
        exact ⟨by simp, ih ys⟩
      · rw [if_neg hxy]; rfl

theorem lcp_prefL_right : ∀ a b : List String, isPrefL (lcp a b) b = true := by
  intro a
  induction a with
  | nil => intro b; cases b <;> rfl
  | cons x xs ih =>
    intro b
    cases b with
    | nil => rfl
    | cons y ys =>
      simp only [lcp]
      by_cases hxy : (x == y) = true
      · rw [if_pos hxy]
        simp only [isPrefL, Bool.and_eq_true]
        exact ⟨hxy, ih ys⟩
      · rw [if_neg hxy]; rfl

theorem prefL_trans :
    ∀ a b c : List String, isPrefL a b = true → isPrefL b c = true →
      isPrefL a c = true := by
  intro a
  induction a with
  | nil => intro b c _ _; rfl
  | cons x xs ih =>
    intro b c hab hbc
    cases b with
    | nil => cases hab
    | cons y ys =>
      cases c with
      | nil => cases hbc
      | cons z zs =>
        simp only [isPrefL, Bool.and_eq_true, beq_iff_eq] at hab hbc ⊢
        exact ⟨hab.1.trans hbc.1, ih ys zs hab.2 hbc.2⟩

theorem foldl_lcp_prefL_acc :
    ∀ (ps : List PyPath) (acc : PyPath), isPrefL (ps.foldl lcp acc) acc = true := by
  intro ps
  induction ps with
  | nil => intro acc; exact prefL_refl acc
  | cons b ps ih =>
    intro acc
    simp only [List.foldl_cons]
    exact prefL_trans _ _ _ (ih (lcp acc b)) (lcp_prefL_left acc b)

theorem foldl_lcp_prefL_mem :
    ∀ (ps : List PyPath) (acc p : PyPath), p ∈ ps →
      isPrefL (ps.foldl lcp acc) p = true := by
  intro ps
  induction ps with
  | nil => intro acc p hp; cases hp
  | cons b ps ih =>
    intro acc p hp
    simp only [List.foldl_cons]
    rcases List.mem_cons.mp hp with rfl | hp
    · exact prefL_trans _ _ _ (foldl_lcp_prefL_acc ps (lcp acc p)) (lcp_prefL_right acc p)
    · exact ih (lcp acc b) p hp

theorem common_base_prefL (ps : List PyPath) (p : PyPath) (hp : p ∈ ps) :
    isPrefL (common_base ps) p = true := by
  cases ps with
  | nil => cases hp
  | cons q qs =>
    simp only [common_base]
    rcases List.mem_cons.mp hp with rfl | hp
    · exact foldl_lcp_prefL_acc qs p
    · exact foldl_lcp_prefL_mem qs q p hp

/-! ### Lemmas about the per-module and per-unit generation loops -/

theorem pynLoop_count (env : PynEnv) :
    ∀ ms : List String,
      (pynLoop env ms).1 = (ms.filter (fun m => env.exitCode m == 0)).length := by
  intro ms
  induction ms with
  | nil => rfl
  | cons m ms ih =>
    simp only [pynLoop, List.filter_cons]
    by_cases h : (env.exitCode m == 0) = true
    · simp [h, ih]
    · simp [h, ih, if_neg h]

theorem gemCombine_assoc (x y z : GemAcc) :
    gemCombine (gemCombine x y) z = gemCombine x (gemCombine y z) := by
  simp [gemCombine, Nat.add_assoc, List.append_assoc]

theorem gemLoop_append (env : GemEnv) :
    ∀ (xs ys : List String) (i : Nat),
      gemLoop env (xs ++ ys) i =
        gemCombine (gemLoop env xs i) (gemLoop env ys (i + xs.length)) := by
  intro xs
  induction xs with
  | nil =>
    intro ys i
    simp [gemLoop, gemCombine]
  | cons f fs ih =>
    intro ys i
    have h1 : gemLoop env ((f :: fs) ++ ys) i
        = gemCombine (gemStep (env.response i) f) (gemLoop env (fs ++ ys) (i + 1)) := rfl
    have h2 : gemLoop env (f :: fs) i
        = gemCombine (gemStep (env.response i) f) (gemLoop env fs (i + 1)) := rfl
    rw [h1, h2, ih ys (i + 1), gemCombine_assoc]
    have h3 : i + 1 + fs.length = i + (f :: fs).length := by
      simp only [List.length_cons]
      omega
    rw [h3]

theorem gemStep_generated_ok (o : GenOutcome) (f : String) (h : unitOk o = true) :
    (gemStep o f).generated = 1 := by
  cases o with
  | raised m => simp [unitOk] at h
  | blocked r => simp [unitOk] at h
  | completed t =>
    have hne : cleaned_code t ≠ "" := by simpa [unitOk, bne_iff_ne] using h
    simp [gemStep, hne]

theorem gemLoop_generated_pos (env : GemEnv) :
    ∀ (fs : List String) (i j : Nat), j < fs.length →
      unitOk (env.response (i + j)) = true → 0 < (gemLoop env fs i).generated := by
  intro fs
  induction fs with
  | nil => intro i j hj _; simp at hj
  | cons f fs ih =>
    intro i j hj hok
    have hg : gemLoop env (f :: fs) i
        = gemCombine (gemStep (env.response i) f) (gemLoop env fs (i + 1)) := rfl
    rw [hg]
    cases j with
    | zero =>
      have h1 : (gemStep (env.response i) f).generated = 1 :=
        gemStep_generated_ok _ _ (by simpa using hok)
      simp [gemCombine, h1]
    | succ j =>
      have hj2 : j < fs.length := by
        simp only [List.length_cons] at hj
        omega
      have hok2 : unitOk (env.response (i + 1 + j)) = true := by
        have he : i + 1 + j = i + (j + 1) := by omega
        rw [he]; exact hok
      have := ih (i + 1) j hj2 hok2
      simp only [gemCombine]
      omega

theorem blockedMsg_ne (r : Option String) : blockedMsg r ≠ "" := by
  intro h
  unfold blockedMsg at h
  have h2 := congrArg String.length h
  rw [String.length_append] at h2
  have hL : ("Response was blocked by safety filters. Reason: " : String).length = 48 := by
    decide
  have h0 : ("" : String).length = 0 := rfl
  rw [hL, h0] at h2
  omega

theorem pyJoin_comma_ne :
    ∀ l : List String, l ≠ [] → (∀ x ∈ l, x ≠ "") → pyJoin "," l ≠ "" := by
  intro l
  match l with
  | [] => intro h _; exact absurd rfl h
  | [x] =>
    intro _ h2
    simpa [pyJoin] using h2 x (by simp)
  | x :: y :: t =>
    intro _ _ h
    have hx : pyJoin "," (x :: y :: t) = x ++ "," ++ pyJoin "," (y :: t) := rfl
    rw [hx] at h
    have h2 := congrArg String.length h
    rw [String.length_append, String.length_append] at h2
    have hc : ("," : String).length = 1 := rfl
    have h0 : ("" : String).length = 0 := rfl
    rw [hc, h0] at h2
    omega

theorem zip_filter_map_snd {α : Type} (g : PyPath → Bool) (f : PyPath → α) :
    ∀ (c : List String) (p : List PyPath), c.length = p.length →
      ((List.zip c p).filter (fun u => g u.2)).map (fun u => f u.2)
        = (p.filter g).map f := by
  intro c
  induction c with
  | nil =>
    intro p hp
    cases p with
    | nil => rfl
    | cons q qs => simp at hp
  | cons s ss ih =>
    intro p hp
    cases p with
    | nil => simp at hp
    | cons q qs =>
      have hp2 : ss.length = qs.length := by simpa using hp
      simp only [List.zip_cons_cons, List.filter_cons]
      by_cases hq : g q = true
      · simp only [hq, if_true, List.map_cons, ih qs hp2]
      · simp only [Bool.not_eq_true] at hq
        simp only [hq, Bool.false_eq_true, if_false, ih qs hp2]

theorem writeTo_ok (sp : List PyPath) (r : PyPath) (hne : r ≠ [])
    (hnest : ∀ f ∈ sp, strictPref f r = false ∧ strictPref r f = false) :
    writeTo sp r = .ok (sp ++ [r]) := by
  unfold writeTo
  rw [if_neg (by simpa [List.isEmpty_iff] using hne)]
  have ha1 : sp.any (fun f => strictPref f r) = false := by
    rw [List.any_eq_false]
    intro f hf
    simp [(hnest f hf).1]
  have ha2 : sp.any (fun f => strictPref r f) = false := by
    rw [List.any_eq_false]
    intro f hf
    simp [(hnest f hf).2]
  rw [if_neg (by simp [ha1]), if_neg (by simp [ha2])]

theorem setupLoop_ok (cb : PyPath) :
    ∀ (us : List (String × PyPath)) (sp : List PyPath) (mn : List String),
      (∀ u ∈ us, isPy u.2 = true → isPrefL cb u.2 = true) →
      (∀ u ∈ us, isPy u.2 = true → u.2.drop cb.length ≠ []) →
      (∀ u ∈ us, isPy u.2 = true → ∀ f ∈ sp,
        strictPref f (u.2.drop cb.length) = false ∧
        strictPref (u.2.drop cb.length) f = false) →
      (∀ u ∈ us, ∀ v ∈ us, isPy u.2 = true → isPy v.2 = true →
        strictPref (u.2.drop cb.length) (v.2.drop cb.length) = false) →
      setupLoop cb us sp mn =
        .ok (sp ++ (us.filter (fun u => isPy u.2)).map (fun u => u.2.drop cb.length),
             mn ++ ((us.filter (fun u => isPy u.2)).map
               (fun u => u.2.drop cb.length)).map moduleName) := by
  intro us
  induction us with
  | nil =>
    intro sp mn _ _ _ _
    simp [setupLoop]
  | cons u us ih =>
    intro sp mn h1 h2 h3 h4
    obtain ⟨cu, pu⟩ := u
    by_cases hpy : isPy pu = true
    · have hpref : isPrefL cb pu = true := h1 (cu, pu) (by simp) hpy
      have hrel : relTo pu cb = .ok (pu.drop cb.length) := by simp [relTo, hpref]
      have hne : pu.drop cb.length ≠ [] := h2 (cu, pu) (by simp) hpy
      have hw : writeTo sp (pu.drop cb.length) = .ok (sp ++ [pu.drop cb.length]) :=
        writeTo_ok sp _ hne (h3 (cu, pu) (by simp) hpy)
      have hstep : setupLoop cb ((cu, pu) :: us) sp mn
          = setupLoop cb us (sp ++ [pu.drop cb.length]) (mn ++ [moduleName (pu.drop cb.length)]) := by
        simp only [setupLoop, hpy, if_true, hrel, hw]
      rw [hstep]
      rw [ih (sp ++ [pu.drop cb.length]) (mn ++ [moduleName (pu.drop cb.length)])
        (fun v hv hpv => h1 v (List.mem_cons_of_mem _ hv) hpv)
        (fun v hv hpv => h2 v (List.mem_cons_of_mem _ hv) hpv)
        (fun v hv hpv f hf => by
          rcases List.mem_append.mp hf with hfs | hfr
          · exact h3 v (List.mem_cons_of_mem _ hv) hpv f hfs
          · have hfr2 : f = pu.drop cb.length := by simpa using hfr
            subst hfr2
            exact ⟨h4 (cu, pu) (by simp) v (List.mem_cons_of_mem _ hv) hpy hpv,
                   h4 v (List.mem_cons_of_mem _ hv) (cu, pu) (by simp) hpv hpy⟩)
        (fun v hv w hw2 hpv hpw =>
          h4 v (List.mem_cons_of_mem _ hv) w (List.mem_cons_of_mem _ hw2) hpv hpw)]
      simp [List.filter_cons, hpy]
    · have hstep : setupLoop cb ((cu, pu) :: us) sp mn = setupLoop cb us sp mn := by
        simp only [setupLoop, hpy, if_false]
        simp [hpy]
      rw [hstep]
      rw [ih sp mn
        (fun v hv hpv => h1 v (List.mem_cons_of_mem _ hv) hpv)
        (fun v hv hpv => h2 v (List.mem_cons_of_mem _ hv) hpv)
        (fun v hv hpv => h3 v (List.mem_cons_of_mem _ hv) hpv)
        (fun v hv w hw2 hpv hpw =>
          h4 v (List.mem_cons_of_mem _ hv) w (List.mem_cons_of_mem _ hw2) hpv hpw)]
      simp only [List.filter_cons]
      have hpy2 : isPy pu = false := by
        simpa using hpy
      simp [hpy2]

/-! ### Claim theorems -/

/-- C9 counterexample: the grade mapping does not assign B (Good) to every
score at least 75 — at score 90, which is at least 75, it assigns
A (Excellent). -/
theorem c9_counterexample :
    (75 : Int) ≤ 90 ∧ get_grade 90 = "A (Excellent)" ∧ get_grade 90 ≠ "B (Good)" :=
  ⟨by decide, by decide, by decide⟩

/-- C9 (amended): the security scorer assigns 100 minus 10 per high, 5 per
medium and 2 per low severity finding, floored at 0, so one of each yields 83;
the grade mapping assigns B (Good) to every score in [75, 90) and C (Fair) to
every score in [60, 75). -/
theorem c9_security_score_grades :
    ∀ (h m l s1 s2 : Int), 0 ≤ h → 0 ≤ m → 0 ≤ l →
      75 ≤ s1 → s1 < 90 → 60 ≤ s2 → s2 < 75 →
      0 ≤ security_score h m l ∧
      security_score h m l = max 0 (100 - 10 * h - 5 * m - 2 * l) ∧
      security_score 1 1 1 = 83 ∧
      get_grade s1 = "B (Good)" ∧
      get_grade s2 = "C (Fair)" := by
  intro h m l s1 s2 hh hm hl hs1 hs1b hs2 hs2b
  refine ⟨le_max_left _ _, ?_, by decide, ?_, ?_⟩
  · unfold security_score
    have he : 100 - h * 10 - m * 5 - l * 2 = 100 - 10 * h - 5 * m - 2 * l := by ring
    rw [he]
  · unfold get_grade
    rw [if_neg (by omega), if_pos (by omega)]
  · unfold get_grade
    rw [if_neg (by omega), if_neg (by omega), if_pos (by omega)]

/-- C9 witness: the scorer and the grade mapping evaluated at the concrete
fixture of the claim. -/
theorem c9_witness :
    security_score 1 1 1 = 83 ∧ get_grade 83 = "B (Good)" ∧ get_grade 62 = "C (Fair)" := by
  obtain ⟨_, _, h3, h4, h5⟩ :=
    c9_security_score_grades 1 1 1 83 62 (by decide) (by decide) (by decide)
      (by decide) (by decide) (by decide) (by decide)
  exact ⟨h3, h4, h5⟩

/-- C8: invoked with a list whose eligible (non-empty-named) modules are none,
the coverage runner returns the immediate no-modules-to-cover failure and the
pytest subprocess is never invoked; with a non-empty eligible list the runner
is invoked scoped to exactly the comma-join of those modules. -/
theorem c8_coverage_empty_scope :
    ∀ (env : CovEnv) (modules : List String),
      (modules.filter (fun m => m != "") = [] →
        _run_coverage_analysis env modules = (.failed "No modules to cover.", none)) ∧
      (modules.filter (fun m => m != "") ≠ [] →
        (_run_coverage_analysis env modules).2
          = some (pyJoin "," (modules.filter (fun m => m != "")))) := by
  intro env modules
  constructor
  · intro hempty
    unfold _run_coverage_analysis
    rw [hempty]
    simp [pyJoin]
  · intro hne
    unfold _run_coverage_analysis
    have hjoin : pyJoin "," (modules.filter (fun m => m != "")) ≠ "" := by
      apply pyJoin_comma_ne _ hne
      intro x hx
      have hmem := List.of_mem_filter hx
      simpa [bne_iff_ne] using hmem
    rw [if_neg hjoin]

/-- C8 witness: a list of empty names yields the immediate failure with no
invocation, and a singleton list yields an invocation scoped to it. -/
theorem c8_witness :
    _run_coverage_analysis envAllFail.cov ["", ""] = (.failed "No modules to cover.", none) ∧
    (_run_coverage_analysis envAllFail.cov ["m"]).2 = some "m" := by
  constructor
  · exact (c8_coverage_empty_scope envAllFail.cov ["", ""]).1 (by decide)
  · exact ((c8_coverage_empty_scope envAllFail.cov ["m"]).2 (by decide)).trans (by decide)

/-- C2 counterexample: with a single module whose pynguin process exits 0 but
writes no test output, the stage reports success even though the count of
modules that produced output is zero. -/
theorem c2_counterexample :
    (_run_test_generation pynEnvExitZero ["m"]).success = true ∧
    (["m"].filter pynEnvExitZero.wroteTests).length = 0 :=
  ⟨by decide, by decide⟩

/-- C2 (amended): the search-based stage reports success exactly when at least
one module invocation exited with status 0, and test_suites_generated is the
count of exit-0 invocations; whether output was produced is never consulted. -/
theorem c2_pynguin_success :
    ∀ (env : PynEnv) (modules : List String),
      (_run_test_generation env modules).success
        = decide (0 < (modules.filter (fun m => env.exitCode m == 0)).length) ∧
      (_run_test_generation env modules).test_suites_generated
        = (modules.filter (fun m => env.exitCode m == 0)).length := by
  intro env modules
  unfold _run_test_generation
  exact ⟨by simp [pynLoop_count], by simp [pynLoop_count]⟩

/-- C4: mutation-score extraction is a deterministic function of the summary
text; when the literal killed does not occur in the last line of the stripped
stdout the score is N/A; when no opening parenthesis occurs in that line the
score is N/A (parse miss, no exception); and when killed occurs and the line
splits at its first opening parenthesis, the score is the following token
truncated at the next parenthesis. -/
theorem c4_mutation_score_extraction :
    ∀ (s : String) (a b : List Char),
      (mutmut_score s = mutmut_score s) ∧
      ((¬ ∃ x y, pyLastLine s = x ++ "killed".data ++ y) → mutmut_score s = "N/A") ∧
      ((¬ ∃ x y, pyLastLine s = x ++ '(' :: y) → mutmut_score s = "N/A") ∧
      (pyLastLine s = a ++ '(' :: b → '(' ∉ a →
        (∃ x y, pyLastLine s = x ++ "killed".data ++ y) →
        mutmut_score s
          = String.mk ((b.takeWhile (fun c => c != '(')).takeWhile (fun c => c != ')'))) := by
  intro s a b
  refine ⟨rfl, ?_, ?_, ?_⟩
  · intro hno
    have hc : containsSub "killed".data (pyLastLine s) = false := by
      cases hcc : containsSub "killed".data (pyLastLine s) with
      | false => rfl
      | true => exact absurd ((containsSub_iff _ _).mp hcc) hno
    simp only [mutmut_score]
    rw [hc]
    simp
  · intro hno
    have hf : firstOcc ['('] (pyLastLine s) = none := by
      cases hff : firstOcc ['('] (pyLastLine s) with
      | none => rfl
      | some i =>
        obtain ⟨x, y, hxy, _⟩ := firstOcc_some_occurs _ _ _ hff
        exact absurd ⟨x, y, by simpa using hxy⟩ hno
    by_cases hcc : containsSub "killed".data (pyLastLine s) = true
    · simp only [mutmut_score]
      rw [hcc, hf]
      simp
    · simp only [mutmut_score]
      rw [if_neg hcc]
  · intro hab hnotin hex
    have hk : containsSub "killed".data (pyLastLine s) = true := (containsSub_iff _ _).mpr hex
    have hf : firstOcc ['('] (pyLastLine s) = some a.length := by
      rw [hab]
      exact firstOcc_char '(' b a hnotin
    have hdrop : (pyLastLine s).drop (a.length + 1) = b := by
      rw [hab, show a ++ '(' :: b = (a ++ ['(']) ++ b by simp,
        show a.length + 1 = (a ++ ['(']).length by simp]
      exact List.drop_left _ _
    simp only [mutmut_score]
    rw [hk, hf]
    simp [hdrop]

/-- C4 witness: the extraction evaluated on a concrete mutmut summary line. -/
theorem c4_witness : mutmut_score "2/10 killed (20.0%)" = "20.0%" := by
  have h := (c4_mutation_score_extraction "2/10 killed (20.0%)"
      "2/10 killed ".data "20.0%)".data).2.2.2
    (by decide) (by decide) ⟨"2/10 ".data, " (20.0%)".data, by decide⟩
  exact h.trans (by decide)

/-- C5 counterexample: on a completion holding two fenced code blocks, the
first block content (stripped) is the single character a, but the persisted
code is not that — the greedy dotall group spans to the last closing fence. -/
theorem c5_counterexample :
    firstBlockSpec twoBlocks = some "a" ∧ cleaned_code twoBlocks ≠ "a" :=
  ⟨by decide, by decide⟩

/-- C5 (amended): when the text holds no fence header, the persisted code is
the raw text stripped; when it does, the persisted code is the segment between
the first fence header and the last following closing fence, stripped (this
spans past the first block when several occur); and an empty extracted result
records the per-unit empty-response error rather than silently skipping. -/
theorem c5_extraction :
    ∀ (s0 sm te : String) (a b u v : List Char) (f : String),
      (¬ ∃ x y, s0.data = x ++ pyFenceHdr ++ y) →
      sm.data = a ++ pyFenceHdr ++ b →
      (¬ ∃ x y, sm.data = x ++ pyFenceHdr ++ y ∧ x.length < a.length) →
      b = u ++ tripTicks ++ v →
      (¬ ∃ x y, b = x ++ tripTicks ++ y ∧ u.length < x.length) →
      cleaned_code te = "" →
      cleaned_code s0 = String.mk (pyStrip s0.data) ∧
      cleaned_code sm = String.mk (pyStrip u) ∧
      gemStep (.completed te) f
        = ⟨0, [(f, "Gemini returned a valid but empty response.")], []⟩ := by
  intro s0 sm te a b u v f h0 hm hmin hb hmax hte
  refine ⟨?_, ?_, ?_⟩
  · have hnone : firstOcc pyFenceHdr s0.data = none := by
      cases hf : firstOcc pyFenceHdr s0.data with
      | none => rfl
      | some i =>
        obtain ⟨x, y, hxy, _⟩ := firstOcc_some_occurs _ _ _ hf
        exact absurd ⟨x, y, hxy⟩ h0
    simp only [cleaned_code]
    rw [hnone]
  · have hfo : firstOcc pyFenceHdr sm.data = some a.length := by
      rw [hm]
      refine firstOcc_eq _ _ _ ?_
      rintro ⟨x, y, hxy, hlt⟩
      exact hmin ⟨x, y, hm.trans hxy, hlt⟩
    have hrest : sm.data.drop (a.length + pyFenceHdr.length) = b := by
      rw [hm, show a ++ pyFenceHdr ++ b = (a ++ pyFenceHdr) ++ b by simp,
        show a.length + pyFenceHdr.length = (a ++ pyFenceHdr).length by simp]
      exact List.drop_left _ _
    have hlast : lastOcc tripTicks b = some u.length := by
      rw [hb]
      refine lastOcc_eq _ _ _ ?_
      rintro ⟨x, y, hxy, hlt⟩
      exact hmax ⟨x, y, hb.trans hxy, hlt⟩
    have htake : b.take u.length = u := by
      rw [hb, show u ++ tripTicks ++ v = u ++ (tripTicks ++ v) by simp]
      exact List.take_left _ _
    simp only [cleaned_code, hfo, hrest, hlast, htake]
  · simp [gemStep, hte]

/-- C5 witness: the three shapes of the amended claim evaluated on concrete
completions — no fence, the two-block fixture, and a whitespace-only text. -/
theorem c5_witness :
    cleaned_code "plain text" = String.mk (pyStrip "plain text".data) ∧
    cleaned_code twoBlocks = String.mk (pyStrip "a\n```\nmid\n```python\nb\n".data) ∧
    gemStep (.completed "   ") "f.py"
      = ⟨0, [("f.py", "Gemini returned a valid but empty response.")], []⟩ := by
  have hL : lastOcc tripTicks "a\n```\nmid\n```python\nb\n```".data = some 22 := by decide
  exact c5_extraction "plain text" twoBlocks "   " []
    "a\n```\nmid\n```python\nb\n```".data "a\n```\nmid\n```python\nb\n".data [] "f.py"
    ((firstOcc_none_iff _ _).mp (by decide))
    (by decide)
    (by rintro ⟨x, y, hxy, hlt⟩; simp at hlt)
    (by decide)
    (by
      rintro ⟨x, y, hxy, hlt⟩
      have h1 := lastOcc_max tripTicks _ 22 hL x y hxy
      have h2 : ("a\n```\nmid\n```python\nb\n".data).length = 22 := by decide
      omega)
    (by decide)

/-- C6: in the AI-prompted stage, a unit whose response carries no candidates
contributes exactly one error entry whose reason text is non-empty (the block
reason when present, else Unknown); the units after it are still processed and
their contributions appear after it in the error list; and the stage still
reports success when some other unit produced persisted output. -/
theorem c6_ai_unit_isolation :
    ∀ (env : GemEnv) (contents : List String) (paths : List PyPath)
      (fs1 fs2 : List String) (f : String) (r : Option String) (j : Nat),
      env.apiKey = true →
      (List.zip contents paths).map (fun u => basename u.2) = fs1 ++ f :: fs2 →
      env.response fs1.length = .blocked r →
      j < (fs1 ++ f :: fs2).length →
      unitOk (env.response j) = true →
      ∃ g : GemRun,
        _run_ai_test_generation env contents paths = .ran g ∧
        g.errors = (gemLoop env fs1 0).errors
          ++ (f, blockedMsg r) :: (gemLoop env fs2 (fs1.length + 1)).errors ∧
        blockedMsg r ≠ "" ∧
        g.success = true := by
  intro env contents paths fs1 fs2 f r j hkey hfiles hresp hj hok
  have hpos : 0 < (gemLoop env (fs1 ++ f :: fs2) 0).generated := by
    refine gemLoop_generated_pos env (fs1 ++ f :: fs2) 0 j hj ?_
    simpa using hok
  have herr : (gemLoop env (fs1 ++ f :: fs2) 0).errors
      = (gemLoop env fs1 0).errors
        ++ (f, blockedMsg r) :: (gemLoop env fs2 (fs1.length + 1)).errors := by
    rw [gemLoop_append env fs1 (f :: fs2) 0]
    have h0 : 0 + fs1.length = fs1.length := by omega
    rw [h0]
    have hcons : gemLoop env (f :: fs2) fs1.length
        = gemCombine (gemStep (env.response fs1.length) f)
            (gemLoop env fs2 (fs1.length + 1)) := rfl
    rw [hcons, hresp]
    simp [gemCombine, gemStep]
  simp only [_run_ai_test_generation]
  rw [if_pos hkey, hfiles]
  refine ⟨_, rfl, herr, blockedMsg_ne r, decide_eq_true hpos⟩

/-- C6 witness: a two-unit run whose first response is blocked without a
reason and whose second yields a completion; both entries are observed and the
stage succeeds. -/
theorem c6_witness :
    ∃ g : GemRun,
      _run_ai_test_generation gemEnvW ["s1", "s2"] [["d", "a.py"], ["d", "b.py"]] = .ran g ∧
      g.errors = [("a.py", blockedMsg none)] ∧
      blockedMsg none ≠ "" ∧
      g.success = true := by
  obtain ⟨g, h1, h2, h3, h4⟩ := c6_ai_unit_isolation gemEnvW ["s1", "s2"]
    [["d", "a.py"], ["d", "b.py"]] [] ["b.py"] "a.py" none 1
    (by decide) (by decide) (by decide) (by decide) (by decide)
  refine ⟨g, h1, ?_, h3, h4⟩
  rw [h2]
  decide

theorem mem_zip_snd {u : String × PyPath} {c : List String} {p : List PyPath}
    (h : u ∈ List.zip c p) : u.2 ∈ p := by
  obtain ⟨a, b⟩ := u
  exact (List.of_mem_zip h).2

/-- C1: whenever the returned report carries both generation stage results and
both report success = false, the summary status is Failure, the coverage and
mutation entries still hold their initial placeholders, and equivalently the
status cannot be Success. -/
theorem c1_generation_gate :
    ∀ (env : PipeEnv) (contents : List String) (paths : List PyPath) (pr : PynReport)
      (gr : GemReport),
      (run_testing_pipeline env contents paths).pynguin_test_generation = some pr →
      (run_testing_pipeline env contents paths).gemini_test_generation = some gr →
      pr.success = false →
      GemReport.success gr = false →
      (run_testing_pipeline env contents paths).summary.overall_status = "Failure" ∧
      (run_testing_pipeline env contents paths).coverage_analysis = none ∧
      (run_testing_pipeline env contents paths).mutation_testing = none ∧
      (run_testing_pipeline env contents paths).summary.overall_status ≠ "Success" := by
  intro env contents paths pr gr hp hg hps hgs
  cases hs : _setup_project_structure contents paths with
  | error e =>
    simp only [run_testing_pipeline, hs] at hp
    simp [failureReport] at hp
  | ok v =>
    obtain ⟨sp, mn⟩ := v
    simp only [run_testing_pipeline, hs] at hp hg ⊢
    by_cases hemp : sp.isEmpty = true
    · rw [if_pos hemp] at hp
      simp [failureReport] at hp
    · rw [if_neg hemp] at hp hg ⊢
      by_cases hgate : (!(_run_test_generation env.pyn mn).success
          && !GemReport.success (_run_ai_test_generation env.gem contents paths)) = true
      · rw [if_pos hgate] at hp hg ⊢
        refine ⟨rfl, rfl, rfl, fun hcon => ?_⟩
        have hcon2 : ("Failure" : String) = "Success" := hcon
        exact absurd hcon2 (by decide)
      · rw [if_neg hgate] at hp hg
        have hp2 : _run_test_generation env.pyn mn = pr := by simpa using hp
        have hg2 : _run_ai_test_generation env.gem contents paths = gr := by simpa using hg
        exact absurd (by rw [hp2, hg2]; simp [hps, hgs]) hgate

/-- C1 witness: a two-file run in which pynguin fails for every module and the
AI stage is disabled — both generation results are present and failed, and the
pipeline aborts before the measurement stages. -/
theorem c1_witness :
    (run_testing_pipeline envAllFail contentsTwo pathsTwo).summary.overall_status
      = "Failure" ∧
    (run_testing_pipeline envAllFail contentsTwo pathsTwo).coverage_analysis = none ∧
    (run_testing_pipeline envAllFail contentsTwo pathsTwo).mutation_testing = none ∧
    (run_testing_pipeline envAllFail contentsTwo pathsTwo).summary.overall_status
      ≠ "Success" :=
  c1_generation_gate envAllFail contentsTwo pathsTwo
    { success := false, modules_tested := 2, test_suites_generated := 0,
      errors := [("a", "..."), ("b", "...")] }
    (.skipped "GEMINI_API_KEY not set. Skipping.")
    (by decide) (by decide) (by decide) (by decide)

/-- C3 counterexample: on an input where both generators fail, the report is a
Failure whose summary message is exactly str(e) of the raised RuntimeError —
the message does not carry the exception category name anywhere. -/
theorem c3_counterexample :
    (run_testing_pipeline envAllFail contentsTwo pathsTwo).summary.overall_status
      = "Failure" ∧
    (run_testing_pipeline envAllFail contentsTwo pathsTwo).summary.message
      = "All test generation methods failed, cannot proceed." ∧
    ¬ ∃ x y, (run_testing_pipeline envAllFail contentsTwo pathsTwo).summary.message.data
        = x ++ "RuntimeError".data ++ y := by
  refine ⟨by decide, by decide, ?_⟩
  intro hex
  have hmsg : (run_testing_pipeline envAllFail contentsTwo pathsTwo).summary.message
      = "All test generation methods failed, cannot proceed." := by decide
  rw [hmsg] at hex
  have hn : firstOcc "RuntimeError".data
      ("All test generation methods failed, cannot proceed.").data = none := by decide
  exact (firstOcc_none_iff _ _).mp hn hex

/-- C3 (amended): the pipeline always returns a report whose status is Success
or Failure; on every abort path the status is Failure, the summary message is
the message (without category name) of the raised exception, and every
already-assigned stage result stays in the report while the later stages keep
their placeholders. -/
theorem c3_report_on_abort :
    ∀ (env : PipeEnv) (contents : List String) (paths : List PyPath),
      ((run_testing_pipeline env contents paths).summary.overall_status = "Success" ∨
       (run_testing_pipeline env contents paths).summary.overall_status = "Failure") ∧
      (∀ e, _setup_project_structure contents paths = .error e →
        run_testing_pipeline env contents paths = failureReport e none none ∧
        (failureReport e none none).summary.message = e.msg) ∧
      (∀ sp mn, _setup_project_structure contents paths = .ok (sp, mn) →
        sp.isEmpty = true →
        run_testing_pipeline env contents paths
          = failureReport
              (.valueError "Setup failed: No valid Python modules found in selection.")
              none none) ∧
      (∀ sp mn, _setup_project_structure contents paths = .ok (sp, mn) →
        sp.isEmpty = false →
        (_run_test_generation env.pyn mn).success = false →
        GemReport.success (_run_ai_test_generation env.gem contents paths) = false →
        run_testing_pipeline env contents paths
          = failureReport
              (.runtimeError "All test generation methods failed, cannot proceed.")
              (some (_run_test_generation env.pyn mn))
              (some (_run_ai_test_generation env.gem contents paths))) := by
  intro env contents paths
  refine ⟨?_, ?_, ?_, ?_⟩
  · cases hs : _setup_project_structure contents paths with
    | error e =>
      simp only [run_testing_pipeline, hs]
      right; rfl
    | ok v =>
      obtain ⟨sp, mn⟩ := v
      simp only [run_testing_pipeline, hs]
      split
      · right; rfl
      · split
        · right; rfl
        · left; rfl
  · intro e he
    simp only [run_testing_pipeline, he]
    exact ⟨trivial, rfl⟩
  · intro sp mn hok hemp
    simp only [run_testing_pipeline, hok]
    rw [if_pos hemp]
  · intro sp mn hok hemp hpf hgf
    simp only [run_testing_pipeline, hok]
    rw [if_neg (by simp [hemp]), if_pos (by simp [hpf, hgf])]

/-- C3 witness: the three abort shapes evaluated concretely — a raising
materialization, an empty module set, and a both-generators-failed gate. -/
theorem c3_witness :
    (run_testing_pipeline envAllFail ["x"] [["a.py"]]
      = failureReport
          (.isADirectoryError "write_text target is the project root directory")
          none none) ∧
    (run_testing_pipeline envAllFail ["x", "y"] [["a.txt"], ["b.txt"]]
      = failureReport
          (.valueError "Setup failed: No valid Python modules found in selection.")
          none none) ∧
    (run_testing_pipeline envAllFail contentsTwo pathsTwo
      = failureReport
          (.runtimeError "All test generation methods failed, cannot proceed.")
          (some (_run_test_generation envAllFail.pyn ["a", "b"]))
          (some (_run_ai_test_generation envAllFail.gem contentsTwo pathsTwo))) := by
  refine ⟨?_, ?_, ?_⟩
  · exact ((c3_report_on_abort envAllFail ["x"] [["a.py"]]).2.1
      (.isADirectoryError "write_text target is the project root directory") rfl).1
  · exact (c3_report_on_abort envAllFail ["x", "y"] [["a.txt"], ["b.txt"]]).2.2.1
      [] [] rfl rfl
  · exact (c3_report_on_abort envAllFail contentsTwo pathsTwo).2.2.2
      [["a.py"], ["b.py"]] ["a", "b"] rfl rfl (by decide) (by decide)

/-- C10: with a single selected file the common path prefix is the file path
itself, so the relative path of the unit is empty; when the file carries the
.py suffix the materialization raises, and in every case the single-file
pipeline ends in a Failure report with the measurement placeholders intact. -/
theorem c10_single_file :
    ∀ (env : PipeEnv) (content : String) (p : PyPath),
      common_base [p] = p ∧
      relTo p (common_base [p]) = .ok [] ∧
      (isPy p = true → ∃ e, _setup_project_structure [content] [p] = .error e) ∧
      (run_testing_pipeline env [content] [p]).summary.overall_status = "Failure" ∧
      (run_testing_pipeline env [content] [p]).coverage_analysis = none ∧
      (run_testing_pipeline env [content] [p]).mutation_testing = none := by
  intro env content p
  have hcb : common_base [p] = p := rfl
  have hrel : relTo p (common_base [p]) = .ok [] := by
    rw [hcb]
    simp [relTo, prefL_refl p, List.drop_length]
  have hsetup : isPy p = true → _setup_project_structure [content] [p]
      = .error (.isADirectoryError "write_text target is the project root directory") := by
    intro hpy
    show setupLoop (common_base [p]) [(content, p)] [] [] = _
    simp only [setupLoop]
    rw [if_pos hpy, hrel]
    rfl
  have hfail : (run_testing_pipeline env [content] [p]).summary.overall_status
      = "Failure" ∧
      (run_testing_pipeline env [content] [p]).coverage_analysis = none ∧
      (run_testing_pipeline env [content] [p]).mutation_testing = none := by
    by_cases hpy : isPy p = true
    · have hre : run_testing_pipeline env [content] [p]
          = failureReport
              (.isADirectoryError "write_text target is the project root directory")
              none none := by
        simp only [run_testing_pipeline, hsetup hpy]
      rw [hre]
      exact ⟨rfl, rfl, rfl⟩
    · have hsk : _setup_project_structure [content] [p] = .ok ([], []) := by
        show setupLoop (common_base [p]) [(content, p)] [] [] = _
        simp only [setupLoop]
        rw [if_neg hpy]
      have hre : run_testing_pipeline env [content] [p]
          = failureReport
              (.valueError "Setup failed: No valid Python modules found in selection.")
              none none := by
        simp only [run_testing_pipeline, hsk]
        rw [if_pos (show ([] : List PyPath).isEmpty = true from rfl)]
      rw [hre]
      exact ⟨rfl, rfl, rfl⟩
  exact ⟨hcb, hrel, fun hpy => ⟨_, hsetup hpy⟩, hfail.1, hfail.2.1, hfail.2.2⟩

/-- C10 witness: the single-file pipeline on a concrete .py selection. -/
theorem c10_witness :
    (∃ e, _setup_project_structure ["x"] [["a.py"]] = .error e) ∧
    (run_testing_pipeline envAllFail ["x"] [["a.py"]]).summary.overall_status
      = "Failure" ∧
    (run_testing_pipeline envAllFail ["x"] [["a.py"]]).coverage_analysis = none := by
  obtain ⟨h1, h2, h3, h4, h5, h6⟩ := c10_single_file envAllFail "x" ["a.py"]
  exact ⟨h3 (by decide), h4, h5⟩

/-- C7 counterexample: a nonzero unit set consisting of one .py unit — the
materializer does not return a module-name list at all (the claim requires a
returned list of length one); it raises because the relative path of the unit
against the common prefix is empty. -/
theorem c7_counterexample :
    _setup_project_structure ["x"] [["lone.py"]]
      = .error (.isADirectoryError "write_text target is the project root directory") ∧
    ((([["lone.py"]] : List PyPath).filter isPy).length = 1) :=
  ⟨rfl, by decide⟩

/-- C7 (amended): for equal-length inputs in which every .py unit path
strictly extends the common path prefix and no two .py unit relative paths
nest one under the other, the materializer succeeds; the returned module-name
list has exactly one entry per .py-suffixed unit (units without the suffix are
silently skipped), it is the moduleName image of the returned written-file
list, and every module name arises from a written file under the workspace
root. -/
theorem c7_materializer :
    ∀ (contents : List String) (paths : List PyPath),
      contents.length = paths.length →
      (∃ p ∈ paths, isPy p = true) →
      (∀ p ∈ paths, isPy p = true → p.drop (common_base paths).length ≠ []) →
      (∀ p ∈ paths, ∀ q ∈ paths, isPy p = true → isPy q = true →
        strictPref (p.drop (common_base paths).length)
          (q.drop (common_base paths).length) = false) →
      _setup_project_structure contents paths
        = .ok ((paths.filter isPy).map (fun p => p.drop (common_base paths).length),
               ((paths.filter isPy).map
                 (fun p => p.drop (common_base paths).length)).map moduleName) ∧
      (((paths.filter isPy).map (fun p => p.drop (common_base paths).length)).map
          moduleName).length = (paths.filter isPy).length ∧
      ∀ m ∈ ((paths.filter isPy).map
          (fun p => p.drop (common_base paths).length)).map moduleName,
        ∃ f ∈ (paths.filter isPy).map (fun p => p.drop (common_base paths).length),
          moduleName f = m := by
  intro contents paths hlen hex h3 h4
  have hmain : _setup_project_structure contents paths
      = .ok ((paths.filter isPy).map (fun p => p.drop (common_base paths).length),
             ((paths.filter isPy).map
               (fun p => p.drop (common_base paths).length)).map moduleName) := by
    unfold _setup_project_structure
    rw [setupLoop_ok (common_base paths) (List.zip contents paths) [] []
      (fun u hu _ => common_base_prefL paths u.2 (mem_zip_snd hu))
      (fun u hu hpy => h3 u.2 (mem_zip_snd hu) hpy)
      (fun u _ _ f hf => absurd hf (List.not_mem_nil f))
      (fun u hu v hv hpu hpv => h4 u.2 (mem_zip_snd hu) v.2 (mem_zip_snd hv) hpu hpv)]
    rw [List.nil_append, List.nil_append]
    rw [zip_filter_map_snd isPy (fun p => p.drop (common_base paths).length)
      contents paths hlen]
  refine ⟨hmain, by simp, ?_⟩
  intro m hm
  obtain ⟨f, hf, rfl⟩ := List.mem_map.mp hm
  exact ⟨f, hf, rfl⟩

/-- C7 witness: two .py units under a common directory materialize to two
written files and the module names a and b. -/
theorem c7_witness :
    _setup_project_structure contentsTwo pathsTwo = .ok ([["a.py"], ["b.py"]], ["a", "b"]) ∧
    ((["a", "b"] : List String).length = (pathsTwo.filter isPy).length) := by
  obtain ⟨h1, h2, h3⟩ := c7_materializer contentsTwo pathsTwo rfl
    ⟨["r", "a.py"], by decide, by decide⟩ (by decide) (by decide)
  exact ⟨h1.trans (by rfl), by decide⟩
